import Mathlib

/-!
Shallow embedding of the appointment-scheduling core of `src/psychitrist/backend.py`.

Modelling conventions:
* A `datetime` instant is a `Nat`: seconds since day 0 at 00:00, where a "day" is the
  proleptic-Gregorian ordinal used by Python's `date.toordinal` (day 1 = 0001-01-01,
  a Monday).  `t / 86400` is the calendar date of `t`, `(t / 60) % 60` its
  minute-of-hour, `t % 60` its seconds-of-minute.
* The SQLite database (`patients`, `appointments`, `availability_exceptions` tables
  plus their autoincrement counters, which start at 1) is the structure `DB`.
* Each FastAPI endpoint becomes a function `DB → ... → DB × Except SchedError α`:
  every `raise HTTPException` in the Python source returns the (unchanged) session
  state paired with the corresponding `SchedError`; the success path returns the
  mutated state.  An uncaught Python exception (the `ValueError` that
  `datetime.fromisoformat` raises on malformed input, which no endpoint wraps in a
  try/except) is modelled by the distinguished constructor `SchedError.parseError`:
  it is *not* one of the `HTTPException` rejections of the source.
* `Appointment.created_at` (wall-clock metadata, never read by any endpoint logic)
  is omitted.
-/

namespace Psych

/-- Error outcomes of the endpoints.  Each `HTTPException` detail string in the
source gets its own constructor; `parseError` stands for the uncaught
`ValueError` of `datetime.fromisoformat` (an HTTP 500, not a rejection). -/
inductive SchedError where
  /-- Uncaught `ValueError` from `datetime.fromisoformat`. -/
  | parseError
  /-- Detail "Start time must align on 30-minute boundaries." / "Blocks must align to 30-minute boundaries." -/
  | invalidTime
  /-- Detail "Time is outside office hours." -/
  | outOfHours
  /-- Detail "Time falls within a blocked period." -/
  | blocked
  /-- Detail "Slot already booked." -/
  | slotTaken
  /-- Detail "start_time must be before end_time". -/
  | invalidRange
  /-- Detail "Cannot block this time; it is already booked by an existing appointment." -/
  | conflictBooked
  /-- Detail "Time falls within a pre-existing blocked period." -/
  | conflictBlocked
  /-- Status 404, "Appointment not found." / "Block not found." -/
  | notFound
  /-- Detail "Invalid day of week" (`ValueError` caught by the availability endpoint). -/
  | invalidInput
deriving DecidableEq

/-- Row of the `patients` table. -/
structure Patient where
  id : Nat
  name : String
  phone : String
  notes : String
deriving DecidableEq

/-- Row of the `appointments` table (`created_at` omitted, see file header). -/
structure Appointment where
  id : Nat
  patient_id : Nat
  start_time : Nat
  end_time : Nat
  note : String
deriving DecidableEq

/-- Row of the `availability_exceptions` table. -/
structure AvailabilityException where
  id : Nat
  start_time : Nat
  end_time : Nat
  reason : String
deriving DecidableEq

/-- The whole SQLite database: three tables plus their autoincrement counters
(SQLite assigns ids 1, 2, ... in insertion order). -/
structure DB where
  patients : List Patient
  appointments : List Appointment
  exceptions : List AvailabilityException
  nextPatientId : Nat
  nextApptId : Nat
  nextExcId : Nat
deriving DecidableEq

/-- A freshly created database (`Base.metadata.create_all`). -/
def emptyDB : DB := ⟨[], [], [], 1, 1, 1⟩

deriving instance DecidableEq for Except

/-- Source helper `_has_overlap(s1, e1, s2, e2): return s1 < e2 and s2 < e1`. -/
def _has_overlap (s1 e1 s2 e2 : Nat) : Bool :=
  decide (s1 < e2) && decide (s2 < e1)

/-- Propositional form of the half-open interval overlap test. -/
def Overlap (s1 e1 s2 e2 : Nat) : Prop := s1 < e2 ∧ s2 < e1

instance (s1 e1 s2 e2 : Nat) : Decidable (Overlap s1 e1 s2 e2) :=
  inferInstanceAs (Decidable (_ ∧ _))

/-- Office hours `get_office_hours()` — hardcoded 09:00 and 17:00, as seconds-of-day. -/
def get_office_hours : Nat × Nat := (9 * 3600, 17 * 3600)

/-- Grid test `start_dt.minute in (0, 30)` — the test the source actually performs
(minute-of-hour only; seconds are never examined). -/
def OnGridMinute (t : Nat) : Prop := (t / 60) % 60 = 0 ∨ (t / 60) % 60 = 30

instance (t : Nat) : Decidable (OnGridMinute t) := inferInstanceAs (Decidable (_ ∨ _))

/-- Endpoint `POST /appointments/book` after `datetime.fromisoformat` has produced the
instant `t`: grid check, office-hours check, exception-overlap check,
appointment-overlap check, resolve-or-create patient by phone, insert. -/
def book_appointment (db : DB) (phone : String) (t : Nat) (note : String) :
    DB × Except SchedError Appointment :=
  if OnGridMinute t then
    if (t / 86400) * 86400 + get_office_hours.1 ≤ t ∧
        t + 30 * 60 ≤ (t / 86400) * 86400 + get_office_hours.2 then
      if db.exceptions.any (fun x => decide (x.start_time < t + 30 * 60 ∧ x.end_time > t)) then
        (db, .error .blocked)
      else if db.appointments.any (fun a => decide (a.start_time < t + 30 * 60 ∧ a.end_time > t)) then
        (db, .error .slotTaken)
      else
        match db.patients.find? (fun p => p.phone == phone) with
        | some p =>
          ({ db with appointments := db.appointments ++ [⟨db.nextApptId, p.id, t, t + 30 * 60, note⟩],
                     nextApptId := db.nextApptId + 1 },
           .ok ⟨db.nextApptId, p.id, t, t + 30 * 60, note⟩)
        | none =>
          ({ db with patients := db.patients ++ [⟨db.nextPatientId, phone, phone, ""⟩],
                     nextPatientId := db.nextPatientId + 1,
                     appointments := db.appointments ++
                       [⟨db.nextApptId, db.nextPatientId, t, t + 30 * 60, note⟩],
                     nextApptId := db.nextApptId + 1 },
           .ok ⟨db.nextApptId, db.nextPatientId, t, t + 30 * 60, note⟩)
    else (db, .error .outOfHours)
  else (db, .error .invalidTime)

/-- Endpoint `PUT /appointments/{appt_id}` after parsing: grid check, office-hours check,
lookup (404), exception-overlap check, appointment-overlap check excluding the
appointment itself, then replace both endpoints. -/
def update_appointment (db : DB) (appt_id : Nat) (t : Nat) :
    DB × Except SchedError Appointment :=
  if OnGridMinute t then
    if (t / 86400) * 86400 + get_office_hours.1 ≤ t ∧
        t + 30 * 60 ≤ (t / 86400) * 86400 + get_office_hours.2 then
      match db.appointments.find? (fun a => a.id == appt_id) with
      | none => (db, .error .notFound)
      | some appt =>
        if db.exceptions.any (fun x => decide (x.start_time < t + 30 * 60 ∧ x.end_time > t)) then
          (db, .error .blocked)
        else if db.appointments.any
            (fun a => decide (a.start_time < t + 30 * 60 ∧ a.end_time > t ∧ a.id ≠ appt_id)) then
          (db, .error .slotTaken)
        else
          ({ db with appointments := (db.appointments.map (fun a =>
               if a.id = appt_id then { a with start_time := t, end_time := t + 30 * 60 } else a)) },
           .ok { appt with start_time := t, end_time := t + 30 * 60 })
    else (db, .error .outOfHours)
  else (db, .error .invalidTime)

/-- Endpoint `DELETE /appointments/{appt_id}`: unconditional delete, 404 if absent. -/
def delete_appointment (db : DB) (appt_id : Nat) : DB × Except SchedError Unit :=
  match db.appointments.find? (fun a => a.id == appt_id) with
  | none => (db, .error .notFound)
  | some _ => ({ db with appointments := db.appointments.filter (fun a => !(a.id == appt_id)) }, .ok ())

/-- Endpoint `POST /availability/block` after parsing both instants: range check, grid
check on both endpoints, appointment-overlap check, exception-overlap check,
insert. -/
def block_availability (db : DB) (s e : Nat) (reason : String) :
    DB × Except SchedError AvailabilityException :=
  if s ≥ e then (db, .error .invalidRange)
  else if ¬ OnGridMinute s ∨ ¬ OnGridMinute e then
    (db, .error .invalidTime)
  else if db.appointments.any (fun a => decide (a.start_time < e ∧ a.end_time > s)) then
    (db, .error .conflictBooked)
  else if db.exceptions.any (fun x => decide (x.start_time < e ∧ x.end_time > s)) then
    (db, .error .conflictBlocked)
  else
    ({ db with exceptions := db.exceptions ++ [⟨db.nextExcId, s, e, reason⟩],
               nextExcId := db.nextExcId + 1 },
     .ok ⟨db.nextExcId, s, e, reason⟩)

/-- Endpoint `DELETE /availability/blocks/{block_id}`. -/
def delete_block (db : DB) (block_id : Nat) : DB × Except SchedError Unit :=
  match db.exceptions.find? (fun x => x.id == block_id) with
  | none => (db, .error .notFound)
  | some _ => ({ db with exceptions := db.exceptions.filter (fun x => !(x.id == block_id)) }, .ok ())

/-- The `while current < base_end` slot-enumeration loop, implemented by
structural recursion on the number of remaining iterations; the theorem
`enumSlots_eq` below proves it satisfies the loop's defining equation. -/
def enumSlotsAux : Nat → Nat → List (Nat × Nat)
  | 0, _ => []
  | n + 1, current => (current, current + 30 * 60) :: enumSlotsAux n (current + 30 * 60)

/-- All 30-minute slots from `current` (inclusive) to `base_end`. -/
def enumSlots (current base_end : Nat) : List (Nat × Nat) :=
  enumSlotsAux ((base_end - current + 1799) / 1800) current

/-- Endpoint `GET /availability` for a resolved target date (a day ordinal): enumerate
the grid slots of the office window, fetch the appointments and exceptions
whose intervals lie entirely inside that window, and keep the slots that
overlap neither (the endpoint's `label`/ISO string formatting is presentation
only and is omitted). -/
def get_available_slots (db : DB) (target_date : Nat) : List (Nat × Nat) :=
  let day_open := target_date * 86400 + get_office_hours.1
  let day_close := target_date * 86400 + get_office_hours.2
  let all_slots := enumSlots day_open day_close
  let booked_appointments := db.appointments.filter
    (fun a => decide (a.start_time ≥ day_open ∧ a.end_time ≤ day_close))
  let blocked_exceptions := db.exceptions.filter
    (fun x => decide (x.start_time ≥ day_open ∧ x.end_time ≤ day_close))
  all_slots.filter (fun slot =>
    !(booked_appointments.any (fun b => _has_overlap slot.1 slot.2 b.start_time b.end_time)) &&
    !(blocked_exceptions.any (fun b => _has_overlap slot.1 slot.2 b.start_time b.end_time)))

/-- Value of a digit string. -/
def digitsVal (cs : List Char) : Nat := cs.foldl (fun n c => n * 10 + (c.toNat - 48)) 0

/-- Gregorian leap-year rule (as in Python's `calendar.isleap`). -/
def isLeapYear (y : Nat) : Bool :=
  decide (y % 4 = 0) && (decide (y % 100 ≠ 0) || decide (y % 400 = 0))

/-- Days in month `m` of year `y`. -/
def daysInMonth (y m : Nat) : Nat :=
  if m = 2 then (if isLeapYear y then 29 else 28)
  else if m = 4 ∨ m = 6 ∨ m = 9 ∨ m = 11 then 30
  else 31

/-- Days in all years before year `y` (proleptic Gregorian). -/
def daysBeforeYear (y : Nat) : Nat :=
  365 * (y - 1) + (y - 1) / 4 + (y - 1) / 400 - (y - 1) / 100

/-- Days in year `y` before month `m`. -/
def daysBeforeMonth (y m : Nat) : Nat :=
  (((List.range (m - 1)).map (fun i => daysInMonth y (i + 1)))).sum

/-- Python `date(y, m, d).toordinal()`. -/
def toOrdinal (y m d : Nat) : Nat := daysBeforeYear y + daysBeforeMonth y m + d

/-- Parse, `date.fromisoformat`-style, of a `YYYY-MM-DD` character sequence to a
day ordinal; `none` models the `ValueError` on malformed input. -/
def parseDate (cs : List Char) : Option Nat :=
  match cs with
  | [y1, y2, y3, y4, h1, m1, m2, h2, d1, d2] =>
    if h1 = '-' ∧ h2 = '-' ∧ ([y1, y2, y3, y4, m1, m2, d1, d2].all Char.isDigit) then
      if 1 ≤ digitsVal [y1, y2, y3, y4] ∧ 1 ≤ digitsVal [m1, m2] ∧ digitsVal [m1, m2] ≤ 12 ∧
          1 ≤ digitsVal [d1, d2] ∧
          digitsVal [d1, d2] ≤ daysInMonth (digitsVal [y1, y2, y3, y4]) (digitsVal [m1, m2]) then
        some (toOrdinal (digitsVal [y1, y2, y3, y4]) (digitsVal [m1, m2]) (digitsVal [d1, d2]))
      else none
    else none
  | _ => none

/-- Parse an `HH:MM` or `HH:MM:SS` time-of-day character sequence to seconds. -/
def parseTime (cs : List Char) : Option Nat :=
  match cs with
  | [h1, h2, c1, m1, m2] =>
    if c1 = ':' ∧ ([h1, h2, m1, m2].all Char.isDigit) then
      if digitsVal [h1, h2] ≤ 23 ∧ digitsVal [m1, m2] ≤ 59 then
        some (digitsVal [h1, h2] * 3600 + digitsVal [m1, m2] * 60)
      else none
    else none
  | [h1, h2, c1, m1, m2, c2, s1, s2] =>
    if c1 = ':' ∧ c2 = ':' ∧ ([h1, h2, m1, m2, s1, s2].all Char.isDigit) then
      if digitsVal [h1, h2] ≤ 23 ∧ digitsVal [m1, m2] ≤ 59 ∧ digitsVal [s1, s2] ≤ 59 then
        some (digitsVal [h1, h2] * 3600 + digitsVal [m1, m2] * 60 + digitsVal [s1, s2])
      else none
    else none
  | _ => none

/-- Model of `datetime.fromisoformat` on the formats the endpoints exchange
(`YYYY-MM-DD`, optionally followed by `T` or a space and `HH:MM[:SS]`);
`none` models the `ValueError` raised on malformed input. -/
def fromisoformat (s : String) : Option Nat :=
  match parseDate (s.data.take 10) with
  | none => none
  | some ord =>
    match s.data.drop 10 with
    | [] => some (ord * 86400)
    | c :: rest =>
      if c = 'T' ∨ c = ' ' then
        match parseTime rest with
        | none => none
        | some secs => some (ord * 86400 + secs)
      else none

/-- The full `POST /appointments/book` endpoint: `datetime.fromisoformat` is
called outside any try/except, so a malformed `start_time` escapes as an
uncaught `ValueError` (`parseError`), mutating nothing. -/
def book_appointment_api (db : DB) (phone start_time note : String) :
    DB × Except SchedError Appointment :=
  match fromisoformat start_time with
  | none => (db, .error .parseError)
  | some t => book_appointment db phone t note

/-- The full `PUT /appointments/{appt_id}` endpoint (same uncaught parse). -/
def update_appointment_api (db : DB) (appt_id : Nat) (new_start_time : String) :
    DB × Except SchedError Appointment :=
  match fromisoformat new_start_time with
  | none => (db, .error .parseError)
  | some t => update_appointment db appt_id t

/-- The full `POST /availability/block` endpoint: both instants are parsed,
start first, before any validation (same uncaught parse). -/
def block_availability_api (db : DB) (start_time end_time reason : String) :
    DB × Except SchedError AvailabilityException :=
  match fromisoformat start_time with
  | none => (db, .error .parseError)
  | some s =>
    match fromisoformat end_time with
    | none => (db, .error .parseError)
    | some e => block_availability db s e reason

/-- Python `date.weekday()` for a day ordinal (day 1 = 0001-01-01 is a Monday = 0). -/
def weekday (d : Nat) : Nat := (d + 6) % 7

/-- The `dow_map` literal of `next_date_for_dow`. -/
def dow_map : List (String × Nat) :=
  [("mon", 0), ("tue", 1), ("wed", 2), ("thu", 3), ("fri", 4), ("sat", 5), ("sun", 6)]

/-- Normalization `dow.strip().lower()[:3]`, over the string's characters. -/
def strip_lower3 (s : String) : String :=
  ⟨(((s.data.dropWhile Char.isWhitespace).reverse.dropWhile
      Char.isWhitespace).reverse.map Char.toLower).take 3⟩

/-- Resolution `next_date_for_dow(dow, ref_date)` with the reference date already resolved
to a day ordinal: normalize the name, look it up, and step forward
`(target - today.weekday()) % 7` days (Python's nonnegative `%`). -/
def next_date_for_dow (dow : String) (today : Nat) : Except SchedError Nat :=
  match dow_map.lookup (strip_lower3 dow) with
  | none => .error .invalidInput
  | some target_weekday =>
    if (target_weekday + 7 - weekday today) % 7 = 0 then .ok today
    else .ok (today + (target_weekday + 7 - weekday today) % 7)

/-- Ledger states reachable from a fresh database by successful booking,
rescheduling, cancellation, blocking and block-removal operations (rejected
operations return the state unchanged, so they add no new states). -/
inductive Reachable : DB → Prop where
  | empty : Reachable emptyDB
  | book (db : DB) (ph : String) (t : Nat) (note : String) (db' : DB) (a : Appointment) :
      Reachable db → book_appointment db ph t note = (db', .ok a) → Reachable db'
  | reschedule (db : DB) (appt_id t : Nat) (db' : DB) (a : Appointment) :
      Reachable db → update_appointment db appt_id t = (db', .ok a) → Reachable db'
  | cancel (db : DB) (appt_id : Nat) (db' : DB) :
      Reachable db → delete_appointment db appt_id = (db', .ok ()) → Reachable db'
  | block (db : DB) (s e : Nat) (r : String) (db' : DB) (x : AvailabilityException) :
      Reachable db → block_availability db s e r = (db', .ok x) → Reachable db'
  | unblock (db : DB) (block_id : Nat) (db' : DB) :
      Reachable db → delete_block db block_id = (db', .ok ()) → Reachable db'

/-- The ledger invariant: appointments pairwise non-overlapping, exceptions
pairwise non-overlapping, no appointment/exception overlap, and bookkeeping
facts about the autoincrement ids needed to preserve the first three. -/
structure InvDB (db : DB) : Prop where
  apptPW : db.appointments.Pairwise
    (fun a b => ¬ Overlap a.start_time a.end_time b.start_time b.end_time)
  excPW : db.exceptions.Pairwise
    (fun x y => ¬ Overlap x.start_time x.end_time y.start_time y.end_time)
  cross : ∀ a ∈ db.appointments, ∀ x ∈ db.exceptions,
    ¬ Overlap a.start_time a.end_time x.start_time x.end_time
  apptIdsNodup : (db.appointments.map (fun a => a.id)).Nodup
  apptIdsLt : ∀ a ∈ db.appointments, a.id < db.nextApptId

/-! ## General lemmas -/

/-- The function `enumSlots` satisfies the defining equation of the source's
`while current < base_end` loop. -/
theorem enumSlots_eq (current base_end : Nat) :
    enumSlots current base_end =
      if current < base_end then
        (current, current + 30 * 60) :: enumSlots (current + 30 * 60) base_end
      else [] := by
  unfold enumSlots
  by_cases h : current < base_end
  · have h1 : (base_end - current + 1799) / 1800 =
        (base_end - (current + 30 * 60) + 1799) / 1800 + 1 := by omega
    rw [h1]
    simp [enumSlotsAux, h]
  · have h1 : (base_end - current + 1799) / 1800 = 0 := by omega
    rw [h1]
    simp [enumSlotsAux, h]

/-- The half-open overlap relation is symmetric. -/
theorem overlap_comm (s1 e1 s2 e2 : Nat) : Overlap s1 e1 s2 e2 ↔ Overlap s2 e2 s1 e1 := by
  unfold Overlap; omega

/-- The Boolean `_has_overlap` decides `Overlap`. -/
theorem _has_overlap_iff (s1 e1 s2 e2 : Nat) :
    _has_overlap s1 e1 s2 e2 = true ↔ Overlap s1 e1 s2 e2 := by
  simp [_has_overlap, Overlap]

/-- Anatomy of a successful booking: the returned appointment, the mutated
tables, and the conflict facts established by the checks that were passed. -/
theorem book_ok_shape (db : DB) (ph : String) (t : Nat) (note : String) (db' : DB)
    (a : Appointment) (h : book_appointment db ph t note = (db', .ok a)) :
    a.start_time = t ∧ a.end_time = t + 30 * 60 ∧ a.id = db.nextApptId ∧ a.note = note ∧
    db'.appointments = db.appointments ++ [a] ∧
    db'.exceptions = db.exceptions ∧
    db'.nextApptId = db.nextApptId + 1 ∧ db'.nextExcId = db.nextExcId ∧
    (∀ x ∈ db.exceptions, ¬ Overlap x.start_time x.end_time t (t + 30 * 60)) ∧
    (∀ b ∈ db.appointments, ¬ Overlap b.start_time b.end_time t (t + 30 * 60)) ∧
    ((db.patients.find? (fun p => p.phone == ph) = none ∧
        db'.patients = db.patients ++ [⟨db.nextPatientId, ph, ph, ""⟩] ∧
        db'.nextPatientId = db.nextPatientId + 1 ∧ a.patient_id = db.nextPatientId) ∨
     (∃ p, db.patients.find? (fun p => p.phone == ph) = some p ∧
        db'.patients = db.patients ∧ db'.nextPatientId = db.nextPatientId ∧
        a.patient_id = p.id)) := by
  unfold book_appointment at h
  repeat' split at h
  all_goals try (solve | simp at h)
  · -- patient found by phone
    rename_i hexc happ x p hp
    rw [Prod.mk.injEq] at h
    obtain ⟨h1, h2⟩ := h
    injection h2 with h2
    subst h1 h2
    have hexc' : ∀ x ∈ db.exceptions, ¬ Overlap x.start_time x.end_time t (t + 30 * 60) := by
      intro x hx hov
      exact hexc (List.any_eq_true.mpr ⟨x, hx, by
        simp only [decide_eq_true_eq]
        unfold Overlap at hov
        omega⟩)
    have happ' : ∀ b ∈ db.appointments, ¬ Overlap b.start_time b.end_time t (t + 30 * 60) := by
      intro b hb hov
      exact happ (List.any_eq_true.mpr ⟨b, hb, by
        simp only [decide_eq_true_eq]
        unfold Overlap at hov
        omega⟩)
    exact ⟨rfl, rfl, rfl, rfl, rfl, rfl, rfl, rfl, hexc', happ', Or.inr ⟨p, hp, rfl, rfl, rfl⟩⟩
  · -- patient created
    rename_i hexc happ x hp
    rw [Prod.mk.injEq] at h
    obtain ⟨h1, h2⟩ := h
    injection h2 with h2
    subst h1 h2
    have hexc' : ∀ x ∈ db.exceptions, ¬ Overlap x.start_time x.end_time t (t + 30 * 60) := by
      intro x hx hov
      exact hexc (List.any_eq_true.mpr ⟨x, hx, by
        simp only [decide_eq_true_eq]
        unfold Overlap at hov
        omega⟩)
    have happ' : ∀ b ∈ db.appointments, ¬ Overlap b.start_time b.end_time t (t + 30 * 60) := by
      intro b hb hov
      exact happ (List.any_eq_true.mpr ⟨b, hb, by
        simp only [decide_eq_true_eq]
        unfold Overlap at hov
        omega⟩)
    exact ⟨rfl, rfl, rfl, rfl, rfl, rfl, rfl, rfl, hexc', happ', Or.inl ⟨hp, rfl, rfl, rfl⟩⟩

/-- Anatomy of a successful reschedule. -/
theorem update_ok_shape (db : DB) (pid t : Nat) (db' : DB) (a : Appointment)
    (h : update_appointment db pid t = (db', .ok a)) :
    db'.patients = db.patients ∧ db'.exceptions = db.exceptions ∧
    db'.nextPatientId = db.nextPatientId ∧ db'.nextApptId = db.nextApptId ∧
    db'.nextExcId = db.nextExcId ∧
    db'.appointments = db.appointments.map
      (fun x => if x.id = pid then { x with start_time := t, end_time := t + 30 * 60 } else x) ∧
    (∀ x ∈ db.exceptions, ¬ Overlap x.start_time x.end_time t (t + 30 * 60)) ∧
    (∀ b ∈ db.appointments, b.id ≠ pid → ¬ Overlap b.start_time b.end_time t (t + 30 * 60)) := by
  unfold update_appointment at h
  repeat' split at h
  all_goals try (solve | simp at h)
  rename_i appt hfind hoh hexc happ
  rw [Prod.mk.injEq] at h
  obtain ⟨h1, h2⟩ := h
  subst h1
  have hexc' : ∀ x ∈ db.exceptions, ¬ Overlap x.start_time x.end_time t (t + 30 * 60) := by
    intro x hx hov
    exact hexc (List.any_eq_true.mpr ⟨x, hx, by
      simp only [decide_eq_true_eq]
      unfold Overlap at hov
      omega⟩)
  have happ' : ∀ b ∈ db.appointments, b.id ≠ pid →
      ¬ Overlap b.start_time b.end_time t (t + 30 * 60) := by
    intro b hb hid hov
    exact happ (List.any_eq_true.mpr ⟨b, hb, by
      simp only [decide_eq_true_eq]
      unfold Overlap at hov
      exact ⟨by omega, by omega, hid⟩⟩)
  exact ⟨rfl, rfl, rfl, rfl, rfl, rfl, hexc', happ'⟩

/-- Anatomy of a successful block creation. -/
theorem block_ok_shape (db : DB) (s e : Nat) (r : String) (db' : DB)
    (x : AvailabilityException) (h : block_availability db s e r = (db', .ok x)) :
    db'.patients = db.patients ∧ db'.appointments = db.appointments ∧
    db'.exceptions = db.exceptions ++ [x] ∧ x = ⟨db.nextExcId, s, e, r⟩ ∧
    db'.nextPatientId = db.nextPatientId ∧ db'.nextApptId = db.nextApptId ∧
    db'.nextExcId = db.nextExcId + 1 ∧
    (∀ b ∈ db.appointments, ¬ Overlap b.start_time b.end_time s e) ∧
    (∀ y ∈ db.exceptions, ¬ Overlap y.start_time y.end_time s e) := by
  unfold block_availability at h
  repeat' split at h
  all_goals try (solve | simp at h)
  rename_i hrange hgrid happ hexc
  have happ' : ∀ b ∈ db.appointments, ¬ Overlap b.start_time b.end_time s e := by
    intro b hb hov
    exact happ (List.any_eq_true.mpr ⟨b, hb, by
      simp only [decide_eq_true_eq]
      unfold Overlap at hov
      omega⟩)
  have hexc' : ∀ y ∈ db.exceptions, ¬ Overlap y.start_time y.end_time s e := by
    intro y hy hov
    exact hexc (List.any_eq_true.mpr ⟨y, hy, by
      simp only [decide_eq_true_eq]
      unfold Overlap at hov
      omega⟩)
  rw [Prod.mk.injEq] at h
  obtain ⟨h1, h2⟩ := h
  injection h2 with h2
  subst h1 h2
  exact ⟨rfl, rfl, rfl, rfl, rfl, rfl, rfl, happ', hexc'⟩

/-- Anatomy of a successful cancellation. -/
theorem delete_appointment_ok_shape (db : DB) (pid : Nat) (db' : DB)
    (h : delete_appointment db pid = (db', .ok ())) :
    db' = { db with appointments := db.appointments.filter (fun a => !(a.id == pid)) } := by
  unfold delete_appointment at h
  split at h
  · exact absurd h (by simp)
  · rw [Prod.mk.injEq] at h
    exact h.1.symm

/-- Anatomy of a successful block removal. -/
theorem delete_block_ok_shape (db : DB) (bid : Nat) (db' : DB)
    (h : delete_block db bid = (db', .ok ())) :
    db' = { db with exceptions := db.exceptions.filter (fun x => !(x.id == bid)) } := by
  unfold delete_block at h
  split at h
  · exact absurd h (by simp)
  · rw [Prod.mk.injEq] at h
    exact h.1.symm

/-- C1 (counterexample): the claim "freeSlots(d) emits a grid slot iff no stored
appointment and no stored availability exception overlaps that slot" is false.
Blocking 08:00–10:00 of day 0 succeeds (both endpoints are on the grid), yet
`get_available_slots` still emits the 09:00–09:30 slot, which overlaps the
stored exception under `_has_overlap`: the availability query only consults
exceptions whose interval lies entirely inside the day's office window. -/
theorem get_available_slots_emits_blocked_slot :
    (block_availability emptyDB 28800 36000 "r").2 =
      Except.ok ⟨1, 28800, 36000, "r"⟩ ∧
    (⟨1, 28800, 36000, "r"⟩ : AvailabilityException) ∈
      ((block_availability emptyDB 28800 36000 "r").1).exceptions ∧
    (32400, 34200) ∈ get_available_slots (block_availability emptyDB 28800 36000 "r").1 0 ∧
    _has_overlap 32400 34200 28800 36000 = true := by
  decide

/-- C1 (amended): `get_available_slots db d` emits a grid slot of day `d` iff
no stored appointment *whose interval lies entirely within the office window
of `d`* overlaps it and no stored exception *whose interval lies entirely
within the office window of `d`* overlaps it, under the half-open
`_has_overlap` test (stated with the propositional form `Overlap`). -/
theorem mem_get_available_slots_iff (db : DB) (td s e : Nat) :
    (s, e) ∈ get_available_slots db td ↔
      ((s, e) ∈ enumSlots (td * 86400 + get_office_hours.1) (td * 86400 + get_office_hours.2) ∧
       (∀ a ∈ db.appointments,
          td * 86400 + get_office_hours.1 ≤ a.start_time →
          a.end_time ≤ td * 86400 + get_office_hours.2 →
          ¬ Overlap s e a.start_time a.end_time) ∧
       (∀ x ∈ db.exceptions,
          td * 86400 + get_office_hours.1 ≤ x.start_time →
          x.end_time ≤ td * 86400 + get_office_hours.2 →
          ¬ Overlap s e x.start_time x.end_time)) := by
  simp only [get_available_slots, List.mem_filter, Bool.and_eq_true, Bool.not_eq_true',
    List.any_eq_false, List.mem_filter, decide_eq_true_eq, _has_overlap, Overlap,
    Bool.and_eq_false_iff, decide_eq_false_iff_not, ge_iff_le]
  constructor
  · rintro ⟨hmem, hbook, hblock⟩
    refine ⟨hmem, ?_, ?_⟩
    · intro a ha h1 h2 hov
      have := hbook a ⟨ha, h1, h2⟩
      omega
    · intro x hx h1 h2 hov
      have := hblock x ⟨hx, h1, h2⟩
      omega
  · rintro ⟨hmem, hbook, hblock⟩
    refine ⟨hmem, ?_, ?_⟩
    · intro a ⟨ha, h1, h2⟩
      have := hbook a ha h1 h2
      omega
    · intro x ⟨hx, h1, h2⟩
      have := hblock x hx h1 h2
      omega

/-- A rejected booking returns the state it was given. -/
theorem book_err_shape (db : DB) (ph : String) (t : Nat) (note : String) (db' : DB)
    (err : SchedError) (h : book_appointment db ph t note = (db', .error err)) : db' = db := by
  unfold book_appointment at h
  repeat' split at h
  all_goals first
    | (rw [Prod.mk.injEq] at h; exact h.1.symm)
    | simp at h

/-- A rejected reschedule returns the state it was given. -/
theorem update_err_shape (db : DB) (pid t : Nat) (db' : DB)
    (err : SchedError) (h : update_appointment db pid t = (db', .error err)) : db' = db := by
  unfold update_appointment at h
  repeat' split at h
  all_goals first
    | (rw [Prod.mk.injEq] at h; exact h.1.symm)
    | simp at h

/-- A rejected block creation returns the state it was given. -/
theorem block_err_shape (db : DB) (s e : Nat) (r : String) (db' : DB)
    (err : SchedError) (h : block_availability db s e r = (db', .error err)) : db' = db := by
  unfold block_availability at h
  repeat' split at h
  all_goals first
    | (rw [Prod.mk.injEq] at h; exact h.1.symm)
    | simp at h

/-- C4: a rejected book, reschedule or block call — whatever the error, parse
failures included — leaves the patient table, the appointment ledger and the
exception ledger (the whole database state) exactly as before the call. -/
theorem rejected_call_leaves_state_unchanged (db : DB) (ph note r st en : String)
    (t s e pid : Nat) (err : SchedError) :
    ((book_appointment db ph t note).2 = .error err → (book_appointment db ph t note).1 = db) ∧
    ((update_appointment db pid t).2 = .error err → (update_appointment db pid t).1 = db) ∧
    ((block_availability db s e r).2 = .error err → (block_availability db s e r).1 = db) ∧
    ((book_appointment_api db ph st note).2 = .error err →
      (book_appointment_api db ph st note).1 = db) ∧
    ((update_appointment_api db pid st).2 = .error err →
      (update_appointment_api db pid st).1 = db) ∧
    ((block_availability_api db st en r).2 = .error err →
      (block_availability_api db st en r).1 = db) := by
  refine ⟨?_, ?_, ?_, ?_, ?_, ?_⟩
  · intro h
    rcases heq : book_appointment db ph t note with ⟨db', res⟩
    rw [heq] at h
    cases res with
    | ok a => exact absurd h (by simp)
    | error e2 =>
      exact book_err_shape db ph t note db' e2 heq
  · intro h
    rcases heq : update_appointment db pid t with ⟨db', res⟩
    rw [heq] at h
    cases res with
    | ok a => exact absurd h (by simp)
    | error e2 =>
      exact update_err_shape db pid t db' e2 heq
  · intro h
    rcases heq : block_availability db s e r with ⟨db', res⟩
    rw [heq] at h
    cases res with
    | ok a => exact absurd h (by simp)
    | error e2 =>
      exact block_err_shape db s e r db' e2 heq
  · intro h
    unfold book_appointment_api at h ⊢
    rcases hfi : fromisoformat st with _ | tt
    · rfl
    · rw [hfi] at h
      change (book_appointment db ph tt note).2 = Except.error err at h
      change (book_appointment db ph tt note).1 = db
      rcases heq : book_appointment db ph tt note with ⟨db', res⟩
      rw [heq] at h
      cases res with
      | ok a => exact absurd h (by simp)
      | error e2 =>
        exact book_err_shape db ph tt note db' e2 heq
  · intro h
    unfold update_appointment_api at h ⊢
    rcases hfi : fromisoformat st with _ | tt
    · rfl
    · rw [hfi] at h
      change (update_appointment db pid tt).2 = Except.error err at h
      change (update_appointment db pid tt).1 = db
      rcases heq : update_appointment db pid tt with ⟨db', res⟩
      rw [heq] at h
      cases res with
      | ok a => exact absurd h (by simp)
      | error e2 =>
        exact update_err_shape db pid tt db' e2 heq
  · intro h
    unfold block_availability_api at h ⊢
    rcases hfi : fromisoformat st with _ | ss
    · rfl
    · rw [hfi] at h
      rcases hfe : fromisoformat en with _ | ee
      · rw [hfe] at h
      · rw [hfe] at h
        change (block_availability db ss ee r).2 = Except.error err at h
        change (block_availability db ss ee r).1 = db
        rcases heq : block_availability db ss ee r with ⟨db', res⟩
        rw [heq] at h
        cases res with
        | ok a => exact absurd h (by simp)
        | error e2 =>
          exact block_err_shape db ss ee r db' e2 heq

/-- C4 (witness): three concretely rejected calls (out-of-hours booking,
reschedule of a missing appointment, inverted block range) leave the fresh
database untouched. -/
theorem rejected_call_leaves_state_unchanged_witness :
    (book_appointment emptyDB "p" 0 "").1 = emptyDB ∧
    (update_appointment emptyDB 1 36000).1 = emptyDB ∧
    (block_availability emptyDB 36000 36000 "r").1 = emptyDB ∧
    (book_appointment_api emptyDB "p" "garbage" "").1 = emptyDB := by
  have h := rejected_call_leaves_state_unchanged emptyDB "p" "" "r" "garbage" "x"
    0 36000 36000 1 SchedError.outOfHours
  have h2 := rejected_call_leaves_state_unchanged emptyDB "p" "" "r" "garbage" "x"
    36000 36000 36000 1 SchedError.notFound
  have h3 := rejected_call_leaves_state_unchanged emptyDB "p" "" "r" "garbage" "x"
    0 36000 36000 1 SchedError.invalidRange
  have h4 := rejected_call_leaves_state_unchanged emptyDB "p" "" "r" "garbage" "x"
    0 36000 36000 1 SchedError.parseError
  exact ⟨h.1 (by decide), h2.2.1 (by decide), h3.2.2.1 (by decide), h4.2.2.2.1 (by decide)⟩

/-- C3 (counterexample): a booking request at 10:00:15 — whose seconds part is
nonzero, hence off the spec's grid — is *accepted* by `book_appointment`, not
rejected with `InvalidTimeError`: the source checks only `start_dt.minute`. -/
theorem book_accepts_nonzero_seconds :
    (36015 / 60) % 60 = 0 ∧ 36015 % 60 = 15 ∧
    (book_appointment emptyDB "p" 36015 "").2 =
      Except.ok ⟨1, 1, 36015, 37815, ""⟩ := by
  decide

/-- C3 (amended): `book_appointment` rejects a request with `InvalidTimeError`
exactly when the start's minute-of-hour is neither 0 nor 30; the seconds and
sub-second parts are never examined. -/
theorem book_invalidTime_iff (db : DB) (ph : String) (t : Nat) (note : String) :
    (book_appointment db ph t note).2 = Except.error SchedError.invalidTime ↔
      ¬ OnGridMinute t := by
  constructor
  · intro h hg
    unfold book_appointment at h
    rw [if_pos hg] at h
    repeat' split at h
    all_goals simp at h
  · intro hg
    unfold book_appointment
    rw [if_neg hg]

/-- The appointment-overlap query of the source decides an existential overlap. -/
theorem any_appt_overlap_iff (l : List Appointment) (s e : Nat) :
    ((l.any fun a => decide (a.start_time < e ∧ a.end_time > s)) = true) ↔
      ∃ a ∈ l, Overlap a.start_time a.end_time s e := by
  simp [List.any_eq_true, Overlap]

/-- The exception-overlap query of the source decides an existential overlap. -/
theorem any_exc_overlap_iff (l : List AvailabilityException) (s e : Nat) :
    ((l.any fun x => decide (x.start_time < e ∧ x.end_time > s)) = true) ↔
      ∃ x ∈ l, Overlap x.start_time x.end_time s e := by
  simp [List.any_eq_true, Overlap]

/-- C5: `block_availability` fails with `InvalidRangeError` when start ≥ end;
otherwise with `InvalidTimeError` when either endpoint's minute-of-hour is not
0 or 30; otherwise with a `ConflictError` when the range overlaps an existing
appointment, or else an existing exception, under the half-open test; and
otherwise inserts the exception and returns it. -/
theorem block_availability_spec (db : DB) (s e : Nat) (r : String) :
    (s ≥ e → block_availability db s e r = (db, .error .invalidRange)) ∧
    (¬ s ≥ e → (¬ OnGridMinute s ∨ ¬ OnGridMinute e) →
      block_availability db s e r = (db, .error .invalidTime)) ∧
    (¬ s ≥ e → OnGridMinute s → OnGridMinute e →
      (∃ a ∈ db.appointments, Overlap a.start_time a.end_time s e) →
      block_availability db s e r = (db, .error .conflictBooked)) ∧
    (¬ s ≥ e → OnGridMinute s → OnGridMinute e →
      (∀ a ∈ db.appointments, ¬ Overlap a.start_time a.end_time s e) →
      (∃ x ∈ db.exceptions, Overlap x.start_time x.end_time s e) →
      block_availability db s e r = (db, .error .conflictBlocked)) ∧
    (¬ s ≥ e → OnGridMinute s → OnGridMinute e →
      (∀ a ∈ db.appointments, ¬ Overlap a.start_time a.end_time s e) →
      (∀ x ∈ db.exceptions, ¬ Overlap x.start_time x.end_time s e) →
      block_availability db s e r =
        ({ db with exceptions := db.exceptions ++ [⟨db.nextExcId, s, e, r⟩],
                   nextExcId := db.nextExcId + 1 },
         .ok ⟨db.nextExcId, s, e, r⟩)) := by
  refine ⟨?_, ?_, ?_, ?_, ?_⟩
  · intro h
    unfold block_availability
    rw [if_pos h]
  · intro h1 h2
    unfold block_availability
    rw [if_neg h1, if_pos h2]
  · intro h1 hgs hge hex
    unfold block_availability
    rw [if_neg h1, if_neg (by simp [hgs, hge]),
      if_pos ((any_appt_overlap_iff db.appointments s e).mpr hex)]
  · intro h1 hgs hge hall hex
    unfold block_availability
    rw [if_neg h1, if_neg (by simp [hgs, hge]),
      if_neg (fun hc => by
        obtain ⟨a, ha, hov⟩ := (any_appt_overlap_iff db.appointments s e).mp hc
        exact hall a ha hov),
      if_pos ((any_exc_overlap_iff db.exceptions s e).mpr hex)]
  · intro h1 hgs hge hall hallx
    unfold block_availability
    rw [if_neg h1, if_neg (by simp [hgs, hge]),
      if_neg (fun hc => by
        obtain ⟨a, ha, hov⟩ := (any_appt_overlap_iff db.appointments s e).mp hc
        exact hall a ha hov),
      if_neg (fun hc => by
        obtain ⟨x, hx, hov⟩ := (any_exc_overlap_iff db.exceptions s e).mp hc
        exact hallx x hx hov)]

/-- C5 (witness): blocking 09:00–09:30 on a fresh database inserts the
exception and returns it. -/
theorem block_availability_spec_witness :
    block_availability emptyDB 32400 34200 "lunch" =
      ({ emptyDB with exceptions := [⟨1, 32400, 34200, "lunch"⟩], nextExcId := 2 },
       .ok ⟨1, 32400, 34200, "lunch"⟩) := by
  have h := (block_availability_spec emptyDB 32400 34200 "lunch").2.2.2.2
  exact h (by decide) (by decide) (by decide) (by simp [emptyDB]) (by simp [emptyDB])

/-- Two database states with equal tables and counters are equal. -/
theorem DB_ext (x y : DB) (h1 : x.patients = y.patients)
    (h2 : x.appointments = y.appointments) (h3 : x.exceptions = y.exceptions)
    (h4 : x.nextPatientId = y.nextPatientId) (h5 : x.nextApptId = y.nextApptId)
    (h6 : x.nextExcId = y.nextExcId) : x = y := by
  cases x
  cases y
  simp_all

/-- Mapping a function and then a pointwise left inverse over a list is the
identity. -/
theorem map_map_id (l : List Appointment) (f g : Appointment → Appointment)
    (h : ∀ a ∈ l, g (f a) = a) : (l.map f).map g = l := by
  induction l with
  | nil => rfl
  | cons x xs ih =>
    simp only [List.map_cons]
    rw [h x (by simp), ih (fun a ha => h a (by simp [ha]))]

/-- C9: a successful booking whose phone matches an existing patient leaves the
patient table — in particular that patient's stored name and notes — exactly as
it was: an implicit booking never overwrites patient data. -/
theorem book_preserves_existing_patient (db db' : DB) (ph note : String) (t : Nat)
    (p : Patient) (a : Appointment)
    (hp : db.patients.find? (fun q => q.phone == ph) = some p)
    (h : book_appointment db ph t note = (db', .ok a)) :
    db'.patients = db.patients := by
  have hs := book_ok_shape db ph t note db' a h
  rcases hs.2.2.2.2.2.2.2.2.2.2 with ⟨hnone, _⟩ | ⟨q, hq, hpat, _⟩
  · rw [hp] at hnone
    exact absurd hnone (by simp)
  · exact hpat

/-- C9 (witness): a second booking by the same phone leaves the patient row
created by the first booking untouched. -/
theorem book_preserves_existing_patient_witness :
    ((⟨[⟨1, "p", "p", ""⟩], [⟨1, 1, 36000, 37800, ""⟩, ⟨2, 1, 39600, 41400, ""⟩],
        [], 2, 3, 1⟩ : DB)).patients =
      ((book_appointment emptyDB "p" 36000 "").1).patients :=
  book_preserves_existing_patient (book_appointment emptyDB "p" 36000 "").1
    ⟨[⟨1, "p", "p", ""⟩], [⟨1, 1, 36000, 37800, ""⟩, ⟨2, 1, 39600, 41400, ""⟩], [], 2, 3, 1⟩
    "p" "" 39600 ⟨1, "p", "p", ""⟩ ⟨2, 1, 39600, 41400, ""⟩ (by decide) (by decide)

/-- C10: a successful booking whose phone matches no existing patient creates
exactly one new patient, whose display name *is* the phone string and whose
notes are empty, and the new appointment references that patient's id. -/
theorem book_creates_patient_from_phone (db db' : DB) (ph note : String) (t : Nat)
    (a : Appointment)
    (hp : db.patients.find? (fun q => q.phone == ph) = none)
    (h : book_appointment db ph t note = (db', .ok a)) :
    db'.patients = db.patients ++ [⟨db.nextPatientId, ph, ph, ""⟩] ∧
    a.patient_id = db.nextPatientId := by
  have hs := book_ok_shape db ph t note db' a h
  rcases hs.2.2.2.2.2.2.2.2.2.2 with ⟨_, hpat, _, hpid⟩ | ⟨q, hq, _⟩
  · exact ⟨hpat, hpid⟩
  · rw [hp] at hq
    exact absurd hq (by simp)

/-- C10 (witness): the first booking on a fresh database creates the patient
row `(1, "p", "p", "")` and links the appointment to it. -/
theorem book_creates_patient_from_phone_witness :
    ((⟨[⟨1, "p", "p", ""⟩], [⟨1, 1, 36000, 37800, ""⟩], [], 2, 2, 1⟩ : DB)).patients =
      [] ++ [⟨1, "p", "p", ""⟩] ∧
    (⟨1, 1, 36000, 37800, ""⟩ : Appointment).patient_id = 1 :=
  book_creates_patient_from_phone emptyDB
    ⟨[⟨1, "p", "p", ""⟩], [⟨1, 1, 36000, 37800, ""⟩], [], 2, 2, 1⟩
    "p" "" 36000 ⟨1, 1, 36000, 37800, ""⟩ (by decide) (by decide)

/-- C6: rescheduling an appointment away and then back to its original start
`t0` (whose stored interval was `[t0, t0 + 30min)`, as booking always makes it)
restores the entire database state: the appointment's interval is exactly
restored and patients, other appointments and exceptions are untouched. -/
theorem reschedule_roundtrip (db db1 db2 : DB) (pid t t0 : Nat) (a1 a2 : Appointment)
    (hstart : ∀ a ∈ db.appointments, a.id = pid →
      a.start_time = t0 ∧ a.end_time = t0 + 30 * 60)
    (h1 : update_appointment db pid t = (db1, .ok a1))
    (h2 : update_appointment db1 pid t0 = (db2, .ok a2)) :
    db2 = db := by
  have s1 := update_ok_shape db pid t db1 a1 h1
  have s2 := update_ok_shape db1 pid t0 db2 a2 h2
  obtain ⟨p1, e1, np1, na1, ne1, ap1, -, -⟩ := s1
  obtain ⟨p2, e2, np2, na2, ne2, ap2, -, -⟩ := s2
  refine DB_ext db2 db (p2.trans p1) ?_ (e2.trans e1) (np2.trans np1)
    (na2.trans na1) (ne2.trans ne1)
  rw [ap2, ap1]
  apply map_map_id
  intro a ha
  by_cases hid : a.id = pid
  · obtain ⟨hs, he⟩ := hstart a ha hid
    cases a
    simp_all
  · simp [hid]

/-- C6 (witness): book 10:00, reschedule to 11:00, reschedule back to 10:00 —
the database is exactly the post-booking state again. -/
theorem reschedule_roundtrip_witness :
    (⟨[⟨1, "p", "p", ""⟩], [⟨1, 1, 36000, 37800, ""⟩], [], 2, 2, 1⟩ : DB) =
      (book_appointment emptyDB "p" 36000 "").1 :=
  reschedule_roundtrip (book_appointment emptyDB "p" 36000 "").1
    ⟨[⟨1, "p", "p", ""⟩], [⟨1, 1, 39600, 41400, ""⟩], [], 2, 2, 1⟩
    ⟨[⟨1, "p", "p", ""⟩], [⟨1, 1, 36000, 37800, ""⟩], [], 2, 2, 1⟩
    1 39600 36000 ⟨1, 1, 39600, 41400, ""⟩ ⟨1, 1, 36000, 37800, ""⟩
    (by decide) (by decide) (by decide)

/-- Replacing the interval of the appointment with id `pid` keeps the list
pairwise non-overlapping, provided the new interval clashes with no *other*
appointment and ids are unique. -/
theorem pairwise_map_update (l : List Appointment) (pid ns ne : Nat)
    (hpw : l.Pairwise (fun a b => ¬ Overlap a.start_time a.end_time b.start_time b.end_time))
    (hnd : (l.map (fun a => a.id)).Nodup)
    (hno : ∀ a ∈ l, a.id ≠ pid → ¬ Overlap a.start_time a.end_time ns ne) :
    (l.map (fun a =>
      if a.id = pid then { a with start_time := ns, end_time := ne } else a)).Pairwise
      (fun a b => ¬ Overlap a.start_time a.end_time b.start_time b.end_time) := by
  induction l with
  | nil => simp
  | cons x xs ih =>
    simp only [List.map_cons, List.pairwise_cons] at hpw ⊢
    obtain ⟨hx, hxs⟩ := hpw
    simp only [List.map_cons, List.nodup_cons] at hnd
    refine ⟨?_, ih hxs hnd.2 (fun a ha hne => hno a (List.mem_cons_of_mem _ ha) hne)⟩
    intro b hb
    obtain ⟨y, hy, rfl⟩ := List.mem_map.mp hb
    by_cases hxid : x.id = pid
    · by_cases hyid : y.id = pid
      · exact absurd (List.mem_map.mpr ⟨y, hy, by rw [hyid, hxid]⟩) hnd.1
      · have := hno y (List.mem_cons_of_mem _ hy) hyid
        simp only [if_pos hxid, if_neg hyid]
        unfold Overlap at this ⊢
        omega
    · by_cases hyid : y.id = pid
      · have := hno x (List.mem_cons_self _ _) hxid
        simp only [if_neg hxid, if_pos hyid]
        unfold Overlap at this ⊢
        omega
      · simp only [if_neg hxid, if_neg hyid]
        exact hx y hy

/-- The fresh database satisfies the ledger invariant. -/
theorem inv_empty : InvDB emptyDB := by
  constructor <;> simp [emptyDB]

/-- A successful booking preserves the ledger invariant. -/
theorem inv_book (db : DB) (ph : String) (t : Nat) (note : String) (db' : DB)
    (a : Appointment) (inv : InvDB db)
    (h : book_appointment db ph t note = (db', .ok a)) : InvDB db' := by
  obtain ⟨hs, he, hid, -, hap, hex, hna, -, hexcs, happs, -⟩ :=
    book_ok_shape db ph t note db' a h
  constructor
  · rw [hap, List.pairwise_append]
    refine ⟨inv.apptPW, by simp, ?_⟩
    intro b hb c hc
    simp only [List.mem_singleton] at hc
    subst hc
    rw [hs, he]
    exact happs b hb
  · rw [hex]
    exact inv.excPW
  · intro p hp x hx
    rw [hap] at hp
    rw [hex] at hx
    rcases List.mem_append.mp hp with hpo | hpn
    · exact inv.cross p hpo x hx
    · simp only [List.mem_singleton] at hpn
      subst hpn
      rw [hs, he]
      have := hexcs x hx
      unfold Overlap at this ⊢
      omega
  · rw [hap, List.map_append]
    simp only [List.map_cons, List.map_nil]
    rw [List.nodup_append]
    refine ⟨inv.apptIdsNodup, by simp, ?_⟩
    intro i hi hmem
    obtain ⟨b, hb, rfl⟩ := List.mem_map.mp hi
    simp only [List.mem_singleton] at hmem
    have := inv.apptIdsLt b hb
    rw [hmem, hid] at this
    omega
  · intro b hb
    rw [hap] at hb
    rw [hna]
    rcases List.mem_append.mp hb with hbo | hbn
    · have := inv.apptIdsLt b hbo
      omega
    · simp only [List.mem_singleton] at hbn
      subst hbn
      rw [hid]
      omega

/-- A successful reschedule preserves the ledger invariant. -/
theorem inv_update (db : DB) (pid t : Nat) (db' : DB) (a : Appointment)
    (inv : InvDB db) (h : update_appointment db pid t = (db', .ok a)) : InvDB db' := by
  obtain ⟨-, hex, -, hna, -, hap, hexcs, happs⟩ := update_ok_shape db pid t db' a h
  constructor
  · rw [hap]
    exact pairwise_map_update db.appointments pid t (t + 30 * 60)
      inv.apptPW inv.apptIdsNodup happs
  · rw [hex]
    exact inv.excPW
  · intro p hp x hx
    rw [hap] at hp
    rw [hex] at hx
    obtain ⟨b, hb, rfl⟩ := List.mem_map.mp hp
    by_cases hbid : b.id = pid
    · simp only [if_pos hbid]
      have := hexcs x hx
      unfold Overlap at this ⊢
      omega
    · simp only [if_neg hbid]
      exact inv.cross b hb x hx
  · rw [hap, List.map_map]
    have hcomp : ((fun a => a.id) ∘ (fun a : Appointment =>
        if a.id = pid then { a with start_time := t, end_time := t + 30 * 60 } else a)) =
        (fun a : Appointment => a.id) := by
      funext y
      by_cases hy : y.id = pid <;> simp [hy]
    rw [hcomp]
    exact inv.apptIdsNodup
  · intro b hb
    rw [hap] at hb
    rw [hna]
    obtain ⟨c, hc, rfl⟩ := List.mem_map.mp hb
    have := inv.apptIdsLt c hc
    by_cases hcid : c.id = pid <;> simp [hcid] <;> omega

/-- A successful cancellation preserves the ledger invariant. -/
theorem inv_cancel (db : DB) (pid : Nat) (db' : DB)
    (inv : InvDB db) (h : delete_appointment db pid = (db', .ok ())) : InvDB db' := by
  have hd := delete_appointment_ok_shape db pid db' h
  subst hd
  constructor
  · exact List.Pairwise.sublist (List.filter_sublist _) inv.apptPW
  · exact inv.excPW
  · intro p hp x hx
    exact inv.cross p (List.mem_of_mem_filter hp) x hx
  · exact List.Nodup.sublist (List.Sublist.map _ (List.filter_sublist _)) inv.apptIdsNodup
  · intro b hb
    exact inv.apptIdsLt b (List.mem_of_mem_filter hb)

/-- A successful block creation preserves the ledger invariant. -/
theorem inv_block (db : DB) (s e : Nat) (r : String) (db' : DB)
    (x : AvailabilityException) (inv : InvDB db)
    (h : block_availability db s e r = (db', .ok x)) : InvDB db' := by
  obtain ⟨-, hap, hexl, hxval, -, hna, -, happs, hexcs⟩ := block_ok_shape db s e r db' x h
  subst hxval
  constructor
  · rw [hap]
    exact inv.apptPW
  · rw [hexl, List.pairwise_append]
    refine ⟨inv.excPW, by simp, ?_⟩
    intro y hy z hz
    simp only [List.mem_singleton] at hz
    subst hz
    exact hexcs y hy
  · intro p hp2 z hz
    rw [hap] at hp2
    rw [hexl] at hz
    rcases List.mem_append.mp hz with hzo | hzn
    · exact inv.cross p hp2 z hzo
    · simp only [List.mem_singleton] at hzn
      subst hzn
      exact happs p hp2
  · rw [hap]
    exact inv.apptIdsNodup
  · intro b hb
    rw [hap] at hb
    rw [hna]
    exact inv.apptIdsLt b hb

/-- A successful block removal preserves the ledger invariant. -/
theorem inv_unblock (db : DB) (bid : Nat) (db' : DB)
    (inv : InvDB db) (h : delete_block db bid = (db', .ok ())) : InvDB db' := by
  have hd := delete_block_ok_shape db bid db' h
  subst hd
  constructor
  · exact inv.apptPW
  · exact List.Pairwise.sublist (List.filter_sublist _) inv.excPW
  · intro p hp x hx
    exact inv.cross p hp x (List.mem_of_mem_filter hx)
  · exact inv.apptIdsNodup
  · exact inv.apptIdsLt

/-- Every reachable database state satisfies the ledger invariant. -/
theorem reachable_inv (db : DB) (h : Reachable db) : InvDB db := by
  induction h with
  | empty => exact inv_empty
  | book db0 ph t note db' a hr heq ih => exact inv_book db0 ph t note db' a ih heq
  | reschedule db0 pid t db' a hr heq ih => exact inv_update db0 pid t db' a ih heq
  | cancel db0 pid db' hr heq ih => exact inv_cancel db0 pid db' ih heq
  | block db0 s e r db' x hr heq ih => exact inv_block db0 s e r db' x ih heq
  | unblock db0 bid db' hr heq ih => exact inv_unblock db0 bid db' ih heq

/-- C2: in every state reachable from the fresh database by successful book,
reschedule, cancel, block and remove-block operations, no two stored
appointments overlap, no two stored exceptions overlap, and no stored
appointment overlaps a stored exception (half-open intervals). -/
theorem reachable_states_no_overlap (db : DB) (h : Reachable db) :
    db.appointments.Pairwise
      (fun a b => ¬ Overlap a.start_time a.end_time b.start_time b.end_time) ∧
    db.exceptions.Pairwise
      (fun x y => ¬ Overlap x.start_time x.end_time y.start_time y.end_time) ∧
    ∀ a ∈ db.appointments, ∀ x ∈ db.exceptions,
      ¬ Overlap a.start_time a.end_time x.start_time x.end_time :=
  ⟨(reachable_inv db h).apptPW, (reachable_inv db h).excPW, (reachable_inv db h).cross⟩

/-- C2 (witness): the state reached by one successful booking satisfies all
three no-overlap properties. -/
theorem reachable_states_no_overlap_witness :
    (⟨[⟨1, "p", "p", ""⟩], [⟨1, 1, 36000, 37800, ""⟩], [], 2, 2, 1⟩ : DB).appointments.Pairwise
      (fun a b => ¬ Overlap a.start_time a.end_time b.start_time b.end_time) ∧
    (⟨[⟨1, "p", "p", ""⟩], [⟨1, 1, 36000, 37800, ""⟩], [], 2, 2, 1⟩ : DB).exceptions.Pairwise
      (fun x y => ¬ Overlap x.start_time x.end_time y.start_time y.end_time) ∧
    ∀ a ∈ (⟨[⟨1, "p", "p", ""⟩], [⟨1, 1, 36000, 37800, ""⟩], [], 2, 2, 1⟩ : DB).appointments,
      ∀ x ∈ (⟨[⟨1, "p", "p", ""⟩], [⟨1, 1, 36000, 37800, ""⟩], [], 2, 2, 1⟩ : DB).exceptions,
        ¬ Overlap a.start_time a.end_time x.start_time x.end_time :=
  reachable_states_no_overlap _
    (Reachable.book emptyDB "p" 36000 ""
      ⟨[⟨1, "p", "p", ""⟩], [⟨1, 1, 36000, 37800, ""⟩], [], 2, 2, 1⟩
      ⟨1, 1, 36000, 37800, ""⟩ Reachable.empty (by decide))

/-- C7 (counterexample): the claim "malformed date/time input is rejected with
`InvalidTimeError`" is false for book (and likewise reschedule and block):
`datetime.fromisoformat` is called outside any try/except, so the `ValueError`
escapes as an unhandled failure (`parseError`, an HTTP 500), which is not the
`InvalidTimeError` rejection (HTTP 400) of the specification. -/
theorem book_api_parse_failure_not_invalidTime :
    fromisoformat "not-a-date" = none ∧
    book_appointment_api emptyDB "p" "not-a-date" "" = (emptyDB, .error .parseError) ∧
    SchedError.parseError ≠ SchedError.invalidTime := by
  decide

/-- C7 (amended): for every input string that `datetime.fromisoformat` fails to
parse, book, reschedule and block let the parse failure escape as an uncaught
`ValueError` (`parseError`) — not as an `InvalidTimeError` rejection nor any
other handled error — and leave the database unchanged. -/
theorem parse_failure_propagates (db : DB) (ph note r en : String) (pid : Nat)
    (st : String) (h : fromisoformat st = none) :
    book_appointment_api db ph st note = (db, .error .parseError) ∧
    update_appointment_api db pid st = (db, .error .parseError) ∧
    block_availability_api db st en r = (db, .error .parseError) := by
  refine ⟨?_, ?_, ?_⟩ <;>
    simp [book_appointment_api, update_appointment_api, block_availability_api, h]

/-- C7 (amended, witness): the malformed string "not-a-date" makes all three
endpoints fail with the uncaught parse error, mutating nothing. -/
theorem parse_failure_propagates_witness :
    book_appointment_api emptyDB "p" "not-a-date" "" = (emptyDB, .error .parseError) ∧
    update_appointment_api emptyDB 1 "not-a-date" = (emptyDB, .error .parseError) ∧
    block_availability_api emptyDB "not-a-date" "2025-08-20T10:00" "r" =
      (emptyDB, .error .parseError) :=
  parse_failure_propagates emptyDB "p" "" "r" "2025-08-20T10:00" 1 "not-a-date" (by decide)

/-- Every weekday number stored in `dow_map` is below 7. -/
theorem dow_map_lookup_lt (k : String) (tg : Nat)
    (h : dow_map.lookup k = some tg) : tg < 7 := by
  simp only [dow_map, List.lookup] at h
  repeat' split at h
  all_goals simp_all
  all_goals omega

/-- C8: for a recognized weekday name (one whose trimmed, lowercased first
three letters are in `dow_map`) with target weekday number `tg`,
`next_date_for_dow` returns the unique date `d` with `r ≤ d`, `d < r + 7` and
`weekday d = tg` — in particular `d = r` when `r` itself falls on that weekday
— and for every unrecognized name it fails with `InvalidInputError`. -/
theorem next_date_for_dow_spec (w : String) (r : Nat) :
    (dow_map.lookup (strip_lower3 w) = none →
      next_date_for_dow w r = .error .invalidInput) ∧
    ∀ tg, dow_map.lookup (strip_lower3 w) = some tg →
      ∃ d, next_date_for_dow w r = .ok d ∧ r ≤ d ∧ d < r + 7 ∧ weekday d = tg ∧
        ∀ d2, r ≤ d2 → d2 < r + 7 → weekday d2 = tg → d2 = d := by
  constructor
  · intro h
    unfold next_date_for_dow
    rw [h]
  · intro tg hl
    have htg : tg < 7 := dow_map_lookup_lt _ tg hl
    unfold next_date_for_dow
    rw [hl]
    simp only [weekday]
    by_cases hdelta : (tg + 7 - (r + 6) % 7) % 7 = 0
    · rw [if_pos hdelta]
      exact ⟨r, rfl, by omega, by omega, by omega, fun d2 h1 h2 h3 => by omega⟩
    · rw [if_neg hdelta]
      exact ⟨r + (tg + 7 - (r + 6) % 7) % 7, rfl, by omega, by omega, by omega,
        fun d2 h1 h2 h3 => by omega⟩

/-- C8 (witness): resolving "Wednesday" from reference date 3 (itself a
Wednesday) yields day 3 itself, a date on the requested weekday within the
next seven days. -/
theorem next_date_for_dow_spec_witness :
    next_date_for_dow "Wednesday" 3 = .ok 3 ∧ 3 ≤ 3 ∧ 3 < 3 + 7 ∧ weekday 3 = 2 := by
  obtain ⟨d, hok, h1, h2, h3, -⟩ := (next_date_for_dow_spec "Wednesday" 3).2 2 (by decide)
  have heval : next_date_for_dow "Wednesday" 3 = .ok 3 := by decide
  rw [heval] at hok
  injection hok with hok
  subst hok
  exact ⟨heval, h1, h2, h3⟩

end Psych
